import Mathlib

/-!
# Verification of the `bulkWithdraw` repository

Shallow embedding of the two components covered by the specification:

* the Solidity contract `BulkWithdraw` (`contracts/BulkWithdraw.sol`):
  token registry (`addToken`, `getTokenById`, `getTokenByAddress`) and the
  two batch-distribution entry points (`etherBulkTransferAmounts`,
  `erc20sMultiOriginBulkTransferAmounts`);
* the TypeScript module (`src/index.ts`, class `BulkWithdraw`):
  the off-ledger checks (`checkTokenExistInContract`,
  `checkWalletTokenBalance`, `checkWalletAllowance`) and the two
  orchestrators (`processInvoices`, `processTokenInvoices`).

Conventions of the embedding:

* Addresses are modelled as `Nat` (the zero address is `0`).
* Machine integers are `Nat` with explicit `% 2 ^ w` (or explicit overflow
  checks) exactly where the source's Solidity 0.8 checked arithmetic or
  integer casts matter.
* A reverting Solidity call / a throwing TypeScript call is `Except.error`;
  EVM revert semantics discard every state change of the call, so an
  `Except.error` result carries no state.
* All contract entry points are owner-gated in the source (`onlyOwner`);
  the embedding models the owner's calls, so the gate itself is not
  represented.
-/

/-- `2 ^ 256`, the modulus of the EVM word. -/
def UINT256_MOD : Nat := 2 ^ 256

/-- `2 ^ 256 - 1`, `type(uint256).max` (ethers' `MaxUint256`). -/
def MAX_UINT256 : Nat := 2 ^ 256 - 1

/-- `2 ^ 16`, the modulus of `uint16`. -/
def UINT16_MOD : Nat := 65536

/-- Outcome of a reverting EVM call, as distinguishable by a caller:
a checked-arithmetic panic (Solidity `Panic(0x11)`), a `require` revert
with a reason string, or a failed external call (target has no code /
callee reverted without a bubbled reason). -/
inductive EvmErr where
  | panic : EvmErr
  | revert : String → EvmErr
  | callFailed : EvmErr
  deriving DecidableEq, Repr

/-! ## Token registry (contract storage `tokens` and counter `tokenId`) -/

/-- Registry part of the `BulkWithdraw` contract storage:
`tokenId : Counters.Counter` (a `uint256`) and
`mapping(uint16 => address) public tokens`. -/
structure RegState where
  counter : Nat
  tokens : Nat → Nat

/-- Freshly deployed contract: counter `0`, empty mapping. -/
def freshReg : RegState where
  counter := 0
  tokens := fun _ => 0

/--
```solidity
function addToken(address token) public onlyOwner {
    tokenId.increment();
    uint16 currentId = uint16(tokenId.current());
    require(tokens[currentId] == address(0), "Token already set!");
    tokens[currentId] = token;
    emit TokenAdded(currentId);
}
```
`Counters.increment` adds `1` inside an `unchecked` block (wraps mod
`2 ^ 256`); the `uint16` cast truncates mod `2 ^ 16`. -/
def addToken (st : RegState) (token : Nat) : Except EvmErr RegState :=
  if st.tokens (((st.counter + 1) % UINT256_MOD) % UINT16_MOD) ≠ 0 then
    .error (.revert "Token already set!")
  else
    .ok { counter := (st.counter + 1) % UINT256_MOD,
          tokens := fun j =>
            if j = ((st.counter + 1) % UINT256_MOD) % UINT16_MOD then token
            else st.tokens j }

/--
```solidity
function getTokenById(uint16 _id) public view returns (address) {
    require(_id != 0, "id should not be 0");
    return tokens[_id];
}
```
The argument is a `uint16`; callers of the embedding pass values `< 2 ^ 16`. -/
def getTokenById (st : RegState) (id : Nat) : Except EvmErr Nat :=
  if id = 0 then .error (.revert "id should not be 0") else .ok (st.tokens id)

/-- Body of the scan loop of `getTokenByAddress`:
```solidity
for (uint16 i; i < tokenId.current(); i++) {
    if (tokens[i] == _token) { return i; }
}
return 0;
```
`i` is a checked `uint16`: after the body runs at `i = 65535`, the update
`i++` overflows and the call reverts with `Panic(0x11)`.  `fuel` is
`65536 - i`; the fuel-exhausted case is unreachable from the entry point
(the `i = 65535` branch returns first) and is mapped to the same panic. -/
def gtbaLoop (st : RegState) (token : Nat) : Nat → Nat → Except EvmErr Nat
  | _, 0 => .error .panic
  | i, fuel + 1 =>
    if i < st.counter then
      if st.tokens i = token then .ok i
      else if i = 65535 then .error .panic
      else gtbaLoop st token (i + 1) fuel
    else .ok 0

/--
```solidity
function getTokenByAddress(address _token) public view returns (uint16) {
    for (uint16 i; i < tokenId.current(); i++) {
        if (tokens[i] == _token) { return i; }
    }
    return 0;
}
```
-/
def getTokenByAddress (st : RegState) (token : Nat) : Except EvmErr Nat :=
  gtbaLoop st token 0 65536

/-- A sequence of `addToken` calls by the owner, in order; the first
reverting call aborts the sequence (each call is its own transaction, but
a reverted registration leaves the state unchanged, so nothing after the
first failure is modelled). -/
def runAdds : RegState → List Nat → Except EvmErr RegState
  | st, [] => .ok st
  | st, a :: as =>
    match addToken st a with
    | .ok st' => runAdds st' as
    | .error e => .error e

/-! ### Basic registry lemmas -/

theorem addToken_ok_iff (st : RegState) (a : Nat) :
    (∃ st', addToken st a = .ok st') ↔
      st.tokens (((st.counter + 1) % UINT256_MOD) % UINT16_MOD) = 0 := by
  unfold addToken
  by_cases h : st.tokens (((st.counter + 1) % UINT256_MOD) % UINT16_MOD) = 0
  · simp [h]
  · simp [h]

theorem addToken_counter {st st' : RegState} {a : Nat}
    (h : addToken st a = .ok st') :
    st'.counter = (st.counter + 1) % UINT256_MOD := by
  unfold addToken at h
  by_cases hz : st.tokens (((st.counter + 1) % UINT256_MOD) % UINT16_MOD) = 0
  · simp [hz] at h
    subst h
    rfl
  · simp [hz] at h

theorem addToken_tokens {st st' : RegState} {a : Nat}
    (h : addToken st a = .ok st') (j : Nat) :
    st'.tokens j = a ∨ st'.tokens j = st.tokens j := by
  unfold addToken at h
  by_cases hz : st.tokens (((st.counter + 1) % UINT256_MOD) % UINT16_MOD) = 0
  · simp [hz] at h
    subst h
    by_cases hj : j = ((st.counter + 1) % UINT256_MOD) % UINT16_MOD
    · exact Or.inl (by simp [hj])
    · exact Or.inr (by simp [hj])
  · simp [hz] at h

/-! ## ERC20 world and full chain state -/

/-- State of the ERC20 token contracts the batches touch, indexed by token
contract address.  `hasCode a = false` models an address with no deployed
contract (a high-level Solidity call to it reverts).  The repository's
tests deploy OpenZeppelin-style ERC20 tokens; `transferFrom` below follows
that implementation. -/
structure Erc20World where
  hasCode : Nat → Bool
  balanceOf : Nat → Nat → Nat
  allowance : Nat → Nat → Nat → Nat

/-- OpenZeppelin `ERC20._transfer` as invoked from `transferFrom`:
requires nonzero endpoints and sufficient balance, then moves `amount`
from `frm` to `dst` inside token `token`. -/
def erc20Transfer (w : Erc20World) (token frm dst amount : Nat) :
    Except EvmErr Erc20World :=
  if frm = 0 then .error (.revert "ERC20: transfer from the zero address")
  else if dst = 0 then .error (.revert "ERC20: transfer to the zero address")
  else if w.balanceOf token frm < amount then
    .error (.revert "ERC20: transfer amount exceeds balance")
  else
    let afterSub : Nat → Nat → Nat := fun t h =>
      if t = token ∧ h = frm then w.balanceOf token frm - amount else w.balanceOf t h
    .ok { w with balanceOf := fun t h =>
            if t = token ∧ h = dst then afterSub token dst + amount else afterSub t h }

/-- OpenZeppelin `ERC20.transferFrom(frm, dst, amount)` called by
`caller` on the contract at address `token`: spend the allowance
(`allowance = MaxUint256` is treated as infinite and not decremented),
then transfer.  A call to an address with no code fails. -/
def transferFrom (w : Erc20World) (token caller frm dst amount : Nat) :
    Except EvmErr Erc20World :=
  if w.hasCode token = false then .error .callFailed
  else
    let al := w.allowance token frm caller
    if al = MAX_UINT256 then erc20Transfer w token frm dst amount
    else if al < amount then .error (.revert "ERC20: insufficient allowance")
    else if frm = 0 then .error (.revert "ERC20: approve from the zero address")
    else if caller = 0 then .error (.revert "ERC20: approve to the zero address")
    else
      erc20Transfer
        { w with allowance := fun t o s =>
            if t = token ∧ o = frm ∧ s = caller then al - amount else w.allowance t o s }
        token frm dst amount

/-- Ledger state around the `BulkWithdraw` contract: its registry storage,
the ERC20 world, its own address (the `msg.sender` of the `transferFrom`
calls it issues), its own native-coin balance, and every other account's
native-coin balance.  `ethAccepts a = false` models a receiver whose
fallback rejects a plain `transfer`. -/
structure Chain where
  reg : RegState
  world : Erc20World
  executorAddr : Nat
  executorEth : Nat
  eth : Nat → Nat
  ethAccepts : Nat → Bool

/-! ## Native-coin batch distribution (`etherBulkTransferAmounts`) -/

/-- `struct InvoiceParams { address receiver; uint256 amount; }` -/
structure InvoiceParams where
  receiver : Nat
  amount : Nat
  deriving DecidableEq, Repr

/-- Checked `uint256` addition (Solidity 0.8 default arithmetic):
overflow reverts with `Panic(0x11)`. -/
def add256 (a b : Nat) : Except EvmErr Nat :=
  if a + b < UINT256_MOD then .ok (a + b) else .error .panic

/-- Summing loop of `etherBulkTransferAmounts`:
```solidity
uint256 totalAmount = 0;
for (uint8 i; i < params.length; i++) { totalAmount += params[i].amount; }
```
`i` is a checked `uint8`: after the body runs at `i = 255`, the update
`i++` overflows and the call reverts with `Panic(0x11)` — also when the
element at index `255` was the last one, because the update runs before
the loop condition is re-checked. -/
def sumLoop : List InvoiceParams → Nat → Nat → Except EvmErr Nat
  | [], _, total => .ok total
  | p :: rest, i, total =>
    match add256 total p.amount with
    | .error e => .error e
    | .ok t => if i = 255 then .error .panic else sumLoop rest (i + 1) t

/-- Transfer loop of `etherBulkTransferAmounts`:
```solidity
for (uint8 i; i < params.length; i++) {
    payable(params[i].receiver).transfer(params[i].amount);
}
```
`transfer` fails (reverting the whole call) when the contract's balance
is insufficient or the receiver rejects the funds; a transfer to the
contract itself lands in its `receive()` and leaves its balance unchanged.
The `uint8` counter panics exactly as in `sumLoop`. -/
def xferLoop : List InvoiceParams → Nat → Chain → Except EvmErr Chain
  | [], _, st => .ok st
  | p :: rest, i, st =>
    if st.executorEth < p.amount then .error .callFailed
    else if st.ethAccepts p.receiver = false then .error .callFailed
    else
      let st' :=
        if p.receiver = st.executorAddr then st
        else { st with
                executorEth := st.executorEth - p.amount,
                eth := fun a => if a = p.receiver then st.eth p.receiver + p.amount else st.eth a }
      if i = 255 then .error .panic else xferLoop rest (i + 1) st'

/--
```solidity
function etherBulkTransferAmounts(InvoiceParams[] memory params)
    public payable onlyOwner {
    uint256 totalAmount = 0;
    for (uint8 i; i < params.length; i++) { totalAmount += params[i].amount; }
    require(totalAmount <= address(this).balance,
            "There are not enough funds stored in the smart contract");
    for (uint8 i; i < params.length; i++) {
        payable(params[i].receiver).transfer(params[i].amount);
    }
}
```
The function is `payable`: `msg.value` is credited to the contract before
the body runs, so `address(this).balance` already includes it. -/
def etherBulkTransferAmounts (st : Chain) (msgValue : Nat)
    (params : List InvoiceParams) : Except EvmErr Chain :=
  let st0 := { st with executorEth := st.executorEth + msgValue }
  match sumLoop params 0 0 with
  | .error e => .error e
  | .ok totalAmount =>
    if totalAmount ≤ st0.executorEth then xferLoop params 0 st0
    else .error (.revert "There are not enough funds stored in the smart contract")

/-! ## Token batch distribution (`erc20sMultiOriginBulkTransferAmounts`) -/

/-- `struct TokenInvoiceParams { uint16 token; address receiver; address sender; uint256 amount; }` -/
structure TokenInvoiceParams where
  token : Nat
  receiver : Nat
  sender : Nat
  amount : Nat
  deriving DecidableEq, Repr

/-- Loop of `erc20sMultiOriginBulkTransferAmounts`:
```solidity
for (uint16 i; i < params.length; i++) {
    IERC20 token = IERC20(tokens[params[i].token]);
    token.transferFrom(params[i].sender, params[i].receiver, params[i].amount);
}
```
The token address is read directly from the `tokens` mapping (no zero-id
guard), and the `uint16` counter `i++` panics after the body runs at
`i = 65535`. -/
def erc20Loop : List TokenInvoiceParams → Nat → Chain → Except EvmErr Chain
  | [], _, st => .ok st
  | p :: rest, i, st =>
    match transferFrom st.world (st.reg.tokens p.token) st.executorAddr
        p.sender p.receiver p.amount with
    | .error e => .error e
    | .ok w' =>
      if i = 65535 then .error .panic
      else erc20Loop rest (i + 1) { st with world := w' }

/-- `erc20sMultiOriginBulkTransferAmounts(TokenInvoiceParams[] memory params)`. -/
def erc20sMultiOriginBulkTransferAmounts (st : Chain)
    (params : List TokenInvoiceParams) : Except EvmErr Chain :=
  erc20Loop params 0 st

/-! ## TypeScript module (`src/index.ts`, class `BulkWithdraw`) -/

/-- `interface Wallet { coinType; account; change; index }` — a
hierarchical key-derivation reference, never itself a ledger address. -/
structure Wallet where
  coinType : Nat
  account : Nat
  change : Nat
  index : Nat
  deriving DecidableEq, Repr

/-- `interface SendingInvoice { amount: bigint; receiver: string }`. -/
structure SendingInvoice where
  amount : Nat
  receiver : Nat
  deriving DecidableEq, Repr

/-- `interface SendingTokenInvoice { wallet; tokenAddress; amount; receiver }`. -/
structure SendingTokenInvoice where
  wallet : Wallet
  tokenAddress : Nat
  amount : Nat
  receiver : Nat
  deriving DecidableEq, Repr

/-- `interface CustomError { code: string; message: string }`. -/
structure CustomError where
  code : String
  message : String
  deriving DecidableEq, Repr

/-- Environment of the module: the configured executor contract address
(`config.contract`), the current ledger state it queries, and the
key-management provider's wallet-reference → sender-address derivation
(`getEtherSigner` followed by `getAddress`, a pure derivation from the
HD wallet, abstracted as a function). -/
structure ModuleEnv where
  contractAddr : Nat
  chain : Chain
  resolve : Wallet → Nat

/--
```ts
async checkTokenExistInContract(tokenAddress) {
  const tokenId = await this.contract.getTokenByAddress(tokenAddress);
  if (tokenId) { return true; }
  return false;
}
```
The static call can itself revert (propagated as a thrown error);
`if (tokenId)` is bigint truthiness, i.e. `tokenId ≠ 0`. -/
def checkTokenExistInContract (env : ModuleEnv) (tokenAddress : Nat) :
    Except EvmErr Bool :=
  match getTokenByAddress env.chain.reg tokenAddress with
  | .error e => .error e
  | .ok tokenId => .ok (tokenId ≠ 0)

/--
```ts
async checkWalletAllowance(walletAddress, tokenAddress, amount) {
  const allowance = await erc20Contract.allowance(walletAddress, this.config.contract);
  return allowance > amount;
}
```
The read is modelled as total: the validator queries addresses it is
given as ERC20 tokens, and `Erc20World` assigns every address a balance
and allowance table. -/
def checkWalletAllowance (env : ModuleEnv)
    (walletAddress tokenAddress amount : Nat) : Bool :=
  amount < env.chain.world.allowance tokenAddress walletAddress env.contractAddr

/--
```ts
async checkWalletTokenBalance(walletAddress, tokenAddress, amount) {
  const balance = await erc20Contract.balanceOf(walletAddress);
  return balance > amount;
}
```
-/
def checkWalletTokenBalance (env : ModuleEnv)
    (walletAddress tokenAddress amount : Nat) : Bool :=
  amount < env.chain.world.balanceOf tokenAddress walletAddress

/--
```ts
async processInvoices(hdWallet, amount, sendingInvoices) {
  let totalAmount = BigInt(0);
  for (const invoice of sendingInvoices) { totalAmount += invoice.amount; }
  const contractBalance = await this.provider.getBalance(this.config.contract);
  if (totalAmount > contractBalance + amount) {
    throw new Error("Insufficient funds in contract to process invoices");
  }
  ...
  await contractInstance.etherBulkTransferAmounts(sendingInvoices, { value: amount, ... });
}
```
TypeScript `bigint` arithmetic is exact, so the sum is a plain fold.
The ethers call sends the invoice list as `InvoiceParams[]` with
`msg.value = amount`; on success the model returns the single ledger
write that was issued (entry point argument list and attached value). -/
def processInvoices (env : ModuleEnv) (amount : Nat)
    (sendingInvoices : List SendingInvoice) :
    Except String (List InvoiceParams × Nat) :=
  let totalAmount := sendingInvoices.foldl (fun acc inv => acc + inv.amount) 0
  let contractBalance := env.chain.executorEth
  if contractBalance + amount < totalAmount then
    .error "Insufficient funds in contract to process invoices"
  else
    .ok (sendingInvoices.map (fun inv => ⟨inv.receiver, inv.amount⟩), amount)

/-- One iteration of the `processTokenInvoices` loop over
`sendingTokenInvoices`, threading the accumulated `errors` and `invoices`
lists.  Mirrors the source exactly: existence failure records
`TOKEN_NOT_IN_CONTRACT` and `continue`s (the invoice is not pushed);
otherwise the balance check and the allowance check both run, and the
on-ledger invoice `{ token: getTokenByAddress(...), sender, receiver,
amount }` is pushed. -/
def processTokenInvoice (env : ModuleEnv)
    (acc : List CustomError × List TokenInvoiceParams)
    (inv : SendingTokenInvoice) :
    Except EvmErr (List CustomError × List TokenInvoiceParams) :=
  let sender := env.resolve inv.wallet
  match checkTokenExistInContract env inv.tokenAddress with
  | .error e => .error e
  | .ok tokenExists =>
    if tokenExists = false then
      .ok (acc.1 ++ [⟨"TOKEN_NOT_IN_CONTRACT",
            "Token " ++ toString inv.tokenAddress ++ " is not in the contract."⟩],
           acc.2)
    else
      let errs1 :=
        if checkWalletTokenBalance env sender inv.tokenAddress inv.amount = false then
          acc.1 ++ [⟨"INSUFFICIENT_BALANCE",
            "Insufficient balance in wallet " ++ toString inv.wallet.account ++
              " for token " ++ toString inv.tokenAddress ++ "."⟩]
        else acc.1
      let errs2 :=
        if checkWalletAllowance env sender inv.tokenAddress inv.amount = false then
          errs1 ++ [⟨"INSUFFICIENT_ALLOWANCE",
            "Insufficient allowance for wallet " ++ toString inv.wallet.account ++
              " to contract."⟩]
        else errs1
      match getTokenByAddress env.chain.reg inv.tokenAddress with
      | .error e => .error e
      | .ok tid => .ok (errs2, acc.2 ++ [⟨tid, inv.receiver, sender, inv.amount⟩])

/-- The accumulating loop of `processTokenInvoices`. -/
def processTokenInvoicesLoop (env : ModuleEnv) :
    List CustomError × List TokenInvoiceParams → List SendingTokenInvoice →
    Except EvmErr (List CustomError × List TokenInvoiceParams)
  | acc, [] => .ok acc
  | acc, inv :: rest =>
    match processTokenInvoice env acc inv with
    | .error e => .error e
    | .ok acc' => processTokenInvoicesLoop env acc' rest

/--
```ts
async processTokenInvoices(hdWallet, sendingTokenInvoices) {
  const errors = []; let invoices = [];
  for (const invoice of sendingTokenInvoices) { ... }
  if (errors.length > 0) { return errors; }
  await contractInstance.erc20sMultiOriginBulkTransferAmounts(invoices);
  return errors;
}
```
The result pairs the returned error list with the single ledger write
issued (`some invoices` when `erc20sMultiOriginBulkTransferAmounts` was
called with that list, `none` when nothing was submitted). -/
def processTokenInvoices (env : ModuleEnv)
    (sendingTokenInvoices : List SendingTokenInvoice) :
    Except EvmErr (List CustomError × Option (List TokenInvoiceParams)) :=
  match processTokenInvoicesLoop env ([], []) sendingTokenInvoices with
  | .error e => .error e
  | .ok (errors, invoices) =>
    if errors.length > 0 then .ok (errors, none)
    else .ok (errors, some invoices)

/-! ## Registry scan lemmas -/

/-- The `uint16` id an address resolves to when the scan terminates
normally (the `.ok` payload of `getTokenByAddress`; `0` is dead in the
error case and only makes the function total for stating theorems). -/
def tokenIdOf (st : RegState) (token : Nat) : Nat :=
  match getTokenByAddress st token with
  | .ok i => i
  | .error _ => 0

theorem gtbaLoop_ok_of_counter_le (st : RegState) (a : Nat) :
    ∀ fuel i, i + fuel = 65536 → i ≤ 65535 → st.counter ≤ 65535 →
      ∃ r, gtbaLoop st a i fuel = .ok r := by
  intro fuel
  induction fuel with
  | zero => intro i hif hi _; omega
  | succ fuel ih =>
    intro i hif hi hc
    rw [gtbaLoop]
    by_cases hlt : i < st.counter
    · rw [if_pos hlt]
      by_cases hhit : st.tokens i = a
      · exact ⟨i, by rw [if_pos hhit]⟩
      · rw [if_neg hhit, if_neg (by omega : ¬ i = 65535)]
        exact ih (i + 1) (by omega) (by omega) hc
    · rw [if_neg hlt]
      exact ⟨0, rfl⟩

theorem getTokenByAddress_total (st : RegState) (a : Nat)
    (hc : st.counter ≤ 65535) :
    getTokenByAddress st a = .ok (tokenIdOf st a) := by
  obtain ⟨r, hr⟩ :=
    gtbaLoop_ok_of_counter_le st a 65536 0 rfl (by omega) hc
  unfold tokenIdOf getTokenByAddress
  rw [show gtbaLoop st a 0 65536 = .ok r from hr]

theorem gtbaLoop_miss (st : RegState) (a : Nat)
    (hc : st.counter ≤ 65535)
    (hmiss : ∀ j, j < st.counter → st.tokens j ≠ a) :
    ∀ fuel i, i + fuel = 65536 → i ≤ st.counter →
      gtbaLoop st a i fuel = .ok 0 := by
  intro fuel
  induction fuel with
  | zero => intro i hif hi; omega
  | succ fuel ih =>
    intro i hif hi
    rw [gtbaLoop]
    by_cases hlt : i < st.counter
    · rw [if_pos hlt, if_neg (hmiss i hlt), if_neg (by omega : ¬ i = 65535)]
      exact ih (i + 1) (by omega) (by omega)
    · rw [if_neg hlt]

/-- A never-matching scan over a registry whose counter has not yet
reached `65536` returns the sentinel `0`. -/
theorem getTokenByAddress_miss (st : RegState) (a : Nat)
    (hc : st.counter ≤ 65535)
    (hmiss : ∀ j, j < st.counter → st.tokens j ≠ a) :
    getTokenByAddress st a = .ok 0 :=
  gtbaLoop_miss st a hc hmiss 65536 0 rfl (by omega)

/-- The scan always returns `0` for the zero address when slot `0` of the
mapping is empty, whatever the counter: either the loop does not run, or
its very first probe `tokens[0] == _token` matches and returns `i = 0`. -/
theorem getTokenByAddress_zero (st : RegState) (h0 : st.tokens 0 = 0) :
    getTokenByAddress st 0 = .ok 0 := by
  unfold getTokenByAddress
  rw [gtbaLoop]
  by_cases hlt : 0 < st.counter
  · rw [if_pos hlt, if_pos h0]
  · rw [if_neg hlt]

theorem gtbaLoop_panic (st : RegState) (a : Nat)
    (hc : 65536 ≤ st.counter)
    (hmiss : ∀ j, j ≤ 65535 → st.tokens j ≠ a) :
    ∀ fuel i, i + fuel = 65536 →
      gtbaLoop st a i fuel = .error .panic := by
  intro fuel
  induction fuel with
  | zero => intro i hif; rw [gtbaLoop]
  | succ fuel ih =>
    intro i hif
    rw [gtbaLoop]
    rw [if_pos (by omega : i < st.counter), if_neg (hmiss i (by omega))]
    by_cases h65 : i = 65535
    · rw [if_pos h65]
    · rw [if_neg h65]
      exact ih (i + 1) (by omega)

/-- Once the counter stands at `65536` or beyond, scanning for an address
held in no slot `0 … 65535` reverts with a `uint16` counter overflow
instead of returning the sentinel. -/
theorem getTokenByAddress_panic (st : RegState) (a : Nat)
    (hc : 65536 ≤ st.counter)
    (hmiss : ∀ j, j ≤ 65535 → st.tokens j ≠ a) :
    getTokenByAddress st a = .error .panic :=
  gtbaLoop_panic st a hc hmiss 65536 0 rfl

/-! ## Registration-sequence characterization -/

theorem runAdds_append (xs ys : List Nat) :
    ∀ st : RegState, runAdds st (xs ++ ys) =
      match runAdds st xs with
      | .ok st' => runAdds st' ys
      | .error e => .error e := by
  induction xs with
  | nil => intro st; rfl
  | cons x xs ih =>
    intro st
    show runAdds st (x :: (xs ++ ys)) = _
    rw [runAdds]
    cases h : addToken st x with
    | ok st' => simpa [runAdds, h] using ih st'
    | error e => simp [runAdds, h]

/-- A single registration step below the `uint16` wrap point: the counter
advances by one (no modulus is hit) and exactly the slot `counter + 1` is
written. -/
theorem addToken_step (st : RegState) (a : Nat)
    (hc : st.counter + 1 ≤ 65535)
    (hfree : st.tokens (st.counter + 1) = 0) :
    addToken st a = .ok
      { counter := st.counter + 1,
        tokens := fun j => if j = st.counter + 1 then a else st.tokens j } := by
  have h256 : (st.counter + 1) % UINT256_MOD = st.counter + 1 :=
    Nat.mod_eq_of_lt (lt_of_le_of_lt hc (by norm_num [UINT256_MOD]))
  have h16 : (st.counter + 1) % UINT16_MOD = st.counter + 1 :=
    Nat.mod_eq_of_lt (lt_of_le_of_lt hc (by norm_num [UINT16_MOD]))
  unfold addToken
  simp only [h256, h16]
  rw [if_neg (by simp [hfree])]

/-- State after a sequence of registrations that stays below the `uint16`
wrap point: every call succeeds, the counter counts them, the freshly
assigned slots hold the registered addresses in order, and every other
slot is untouched. -/
theorem runAdds_spec : ∀ (as : List Nat) (st : RegState),
    st.counter + as.length ≤ 65535 →
    (∀ j, st.counter < j → j ≤ 65535 → st.tokens j = 0) →
    ∃ st', runAdds st as = .ok st' ∧
      st'.counter = st.counter + as.length ∧
      (∀ j, j ≤ st.counter ∨ st.counter + as.length < j →
        st'.tokens j = st.tokens j) ∧
      (∀ j, st.counter < j → j ≤ st.counter + as.length →
        st'.tokens j = as.getD (j - st.counter - 1) 0) := by
  intro as
  induction as with
  | nil =>
    intro st _ _
    exact ⟨st, rfl, by simp, fun j _ => rfl, fun j h1 h2 => by
      simp only [List.length_nil, Nat.add_zero] at h2; omega⟩
  | cons a as ih =>
    intro st hlen hfree
    have hstep := addToken_step st a (by simp at hlen; omega)
      (hfree (st.counter + 1) (by omega) (by simp at hlen; omega))
    set st1 : RegState :=
      { counter := st.counter + 1,
        tokens := fun j => if j = st.counter + 1 then a else st.tokens j } with hst1
    obtain ⟨st', hrun, hcnt, huntouched, hassigned⟩ := ih st1
      (by simp only [hst1, List.length_cons] at hlen ⊢; omega)
      (by
        intro j hj1 hj2
        simp only [hst1] at hj1 ⊢
        rw [if_neg (by omega)]
        exact hfree j (by omega) hj2)
    refine ⟨st', ?_, ?_, ?_, ?_⟩
    · show runAdds st (a :: as) = .ok st'
      rw [runAdds, hstep]
      exact hrun
    · simp only [hcnt, hst1, List.length_cons]
      omega
    · intro j hj
      have : st'.tokens j = st1.tokens j := by
        apply huntouched
        simp only [hst1, List.length_cons] at hj ⊢
        omega
      rw [this]
      simp only [hst1]
      rw [if_neg (by simp [List.length_cons] at hj; omega)]
    · intro j hj1 hj2
      by_cases hje : j = st.counter + 1
      · have : st'.tokens j = st1.tokens j := by
          apply huntouched
          simp only [hst1]
          omega
        rw [this]
        simp only [hst1]
        rw [if_pos hje, show j - st.counter - 1 = 0 from by omega]
        simp
      · have : st'.tokens j = as.getD (j - st1.counter - 1) 0 := by
          apply hassigned
          · simp only [hst1]; omega
          · simp only [hst1]
            simp [List.length_cons] at hj2
            omega
        rw [this]
        simp only [hst1]
        have hidx : j - st.counter - 1 = (j - st.counter - 2) + 1 := by omega
        have hidx1 : j - (st.counter + 1) - 1 = j - st.counter - 2 := by omega
        rw [hidx, hidx1, List.getD_cons_succ]

theorem getD_range_map_succ (n k : Nat) (hk : k < n) :
    ((List.range n).map (fun x => x + 1)).getD k 0 = k + 1 := by
  have hlen : k < ((List.range n).map (fun x => x + 1)).length := by simpa using hk
  rw [List.getD_eq_getElem _ _ hlen]
  simp


theorem freshReg_counter : freshReg.counter = 0 := rfl

theorem freshReg_tokens (j : Nat) : freshReg.tokens j = 0 := rfl

theorem length_range_map_succ (n : Nat) :
    ((List.range n).map (fun k => k + 1)).length = n := by
  rw [List.length_map, List.length_range]

/-! ## Claim C1 -/

/-- **C1** (code bug): ids are assigned sequentially and
`getTokenById` round-trips, but `getTokenByAddress` misses the most
recently assigned id: its scan runs `i = 0 … counter - 1` while the
assigned ids are `1 … counter`.  Registering addresses `7` then `8`
gives them ids `1` and `2`; looking up `7` finds `1`, but looking up the
last-registered `8` returns the "not registered" sentinel `0` instead of
`2`. -/
theorem C1_lookupByAddress_misses_last_registration :
    ∃ st : RegState, runAdds freshReg [7, 8] = .ok st ∧
      getTokenById st 1 = .ok 7 ∧ getTokenById st 2 = .ok 8 ∧
      getTokenByAddress st 7 = .ok 1 ∧ getTokenByAddress st 8 = .ok 0 := by
  refine ⟨_, rfl, ?_, ?_, ?_, ?_⟩ <;> rfl

/-! ## Claims C7 and C8 -/

/-- The `65536` registrations that fill every `uint16` slot: addresses
`1, 2, …, 65536` (all nonzero). -/
def fullSeq : List Nat := (List.range 65536).map (fun k => k + 1)

/-- All `65536` registrations of `fullSeq` succeed (the last one wraps
the truncated counter to slot `0`, which is still free), and the
resulting mapping holds `65536` at slot `0` and `j` at each slot
`1 ≤ j ≤ 65535`. -/
theorem runAdds_fullSeq :
    ∃ st : RegState, runAdds freshReg fullSeq = .ok st ∧
      st.counter = 65536 ∧ st.tokens 0 = 65536 ∧
      (∀ j, 1 ≤ j → j ≤ 65535 → st.tokens j = j) ∧
      (∀ j, 65536 ≤ j → st.tokens j = 0) := by
  have hsplit : fullSeq = (List.range 65535).map (fun k => k + 1) ++ [65536] := by
    unfold fullSeq
    rw [show (65536 : Nat) = 65535 + 1 from rfl, List.range_succ, List.map_append]
    rfl
  obtain ⟨st1, hrun1, hcnt1, huntouched, hassigned⟩ :=
    runAdds_spec ((List.range 65535).map (fun k => k + 1)) freshReg
      (by rw [freshReg_counter, length_range_map_succ])
      (by intro j _ _; rfl)
  have hc1 : st1.counter = 65535 := by
    rw [hcnt1, freshReg_counter, length_range_map_succ]
  have h0 : st1.tokens 0 = 0 := by
    rw [huntouched 0 (Or.inl (by omega)), freshReg_tokens]
  have hmid : ∀ j, 1 ≤ j → j ≤ 65535 → st1.tokens j = j := by
    intro j hj1 hj2
    have := hassigned j (by rw [freshReg_counter]; omega)
      (by rw [freshReg_counter, length_range_map_succ]; omega)
    rw [this, freshReg_counter, show j - 0 - 1 = j - 1 from by omega,
        getD_range_map_succ 65535 (j - 1) (by omega)]
    omega
  have hhigh : ∀ j, 65536 ≤ j → st1.tokens j = 0 := by
    intro j hj
    rw [huntouched j (Or.inr
          (by rw [freshReg_counter, length_range_map_succ]; omega)),
        freshReg_tokens]
  have hadd : addToken st1 65536 =
      .ok { counter := 65536, tokens := fun j => if j = 0 then 65536 else st1.tokens j } := by
    unfold addToken
    have e256 : (st1.counter + 1) % UINT256_MOD = 65536 := by
      rw [hc1]
      exact Nat.mod_eq_of_lt (by norm_num [UINT256_MOD])
    rw [e256, show (65536 : Nat) % UINT16_MOD = 0 from rfl,
        if_neg (by simp [h0])]
  refine ⟨⟨65536, fun j => if j = 0 then 65536 else st1.tokens j⟩, ?_, rfl, by simp, ?_, ?_⟩
  · rw [hsplit, runAdds_append, hrun1]
    show runAdds st1 [65536] = _
    rw [runAdds, hadd]
    rfl
  · intro j hj1 hj2
    show (if j = 0 then (65536 : Nat) else st1.tokens j) = j
    rw [if_neg (by omega)]
    exact hmid j hj1 hj2
  · intro j hj
    show (if j = 0 then (65536 : Nat) else st1.tokens j) = 0
    rw [if_neg (by omega)]
    exact hhigh j hj

/-- **C7 counterexample**: after the `65536` successful registrations of
`fullSeq` (all of which pass the check — the last lands in the wrapped
slot `0`), the very next registration selects the occupied slot `1` and
the defensive `"Token already set!"` check fires. -/
theorem C7_counterexample :
    ∃ st : RegState, runAdds freshReg fullSeq = .ok st ∧
      addToken st 99 = .error (.revert "Token already set!") := by
  obtain ⟨st, hrun, hcnt, h0, hmid, hhigh⟩ := runAdds_fullSeq
  refine ⟨st, hrun, ?_⟩
  unfold addToken
  have e : ((st.counter + 1) % UINT256_MOD) % UINT16_MOD = 1 := by
    rw [hcnt, show (65536 + 1) % UINT256_MOD = 65537 from
      Nat.mod_eq_of_lt (by norm_num [UINT256_MOD])]
    rfl
  rw [e, if_pos (by rw [hmid 1 (by omega) (by omega)]; omega)]

/-- **C7** (amended): up to and including the `65536`-th registration the
slot selected by the truncated counter is always unoccupied, so every
call in such a sequence succeeds and the defensive check never fires; the
counterexample above shows it does fire on the `65537`-th call. -/
theorem C7_check_unreachable_before_wrap (as : List Nat)
    (hlen : as.length ≤ 65536) :
    ∃ st : RegState, runAdds freshReg as = .ok st := by
  rcases Nat.lt_or_ge as.length 65536 with hlt | hge
  · obtain ⟨st, hrun, -, -, -⟩ :=
      runAdds_spec as freshReg (by rw [freshReg_counter]; omega)
        (by intro j _ _; rfl)
    exact ⟨st, hrun⟩
  · have hne : as ≠ [] := by
      intro h
      rw [h] at hge
      simp only [List.length_nil] at hge
      omega
    have hdec : as.dropLast ++ [as.getLast hne] = as := List.dropLast_append_getLast hne
    have hdlen : as.dropLast.length = 65535 := by
      have := List.length_dropLast as
      omega
    obtain ⟨st1, hrun1, hcnt1, huntouched, -⟩ :=
      runAdds_spec as.dropLast freshReg (by rw [freshReg_counter]; omega)
        (by intro j _ _; rfl)
    have hc1 : st1.counter = 65535 := by rw [hcnt1, freshReg_counter]; omega
    have h0 : st1.tokens 0 = 0 := by
      rw [huntouched 0 (Or.inl (by omega)), freshReg_tokens]
    have hadd : ∃ st2, addToken st1 (as.getLast hne) = .ok st2 := by
      rw [addToken_ok_iff]
      have e256 : (st1.counter + 1) % UINT256_MOD = 65536 := by
        rw [hc1]
        exact Nat.mod_eq_of_lt (by norm_num [UINT256_MOD])
      rw [e256, show (65536 : Nat) % UINT16_MOD = 0 from rfl]
      exact h0
    obtain ⟨st2, hadd⟩ := hadd
    refine ⟨st2, ?_⟩
    rw [← hdec, runAdds_append, hrun1]
    show runAdds st1 [as.getLast hne] = _
    rw [runAdds, hadd]
    rfl

/-- Witness for `C7_check_unreachable_before_wrap` at the one-element
sequence `[5]`. -/
theorem C7_witness : ∃ st : RegState, runAdds freshReg [5] = .ok st :=
  C7_check_unreachable_before_wrap [5] (by decide)

/-- **C8 counterexample**: in the (reachable) registry filled by the
`65536` successful registrations of `fullSeq`, looking up the
never-registered address `1000000` does not return the sentinel `0` — the
scan's checked `uint16` counter overflows and the call reverts with a
panic. -/
theorem C8_counterexample :
    (1000000 : Nat) ∉ fullSeq ∧
    ∃ st : RegState, runAdds freshReg fullSeq = .ok st ∧
      getTokenByAddress st 1000000 = .error .panic := by
  constructor
  · unfold fullSeq
    simp only [List.mem_map, List.mem_range]
    rintro ⟨k, hk, hk1⟩
    omega
  · obtain ⟨st, hrun, hcnt, h0, hmid, hhigh⟩ := runAdds_fullSeq
    refine ⟨st, hrun, ?_⟩
    apply getTokenByAddress_panic st 1000000 (by omega)
    intro j hj
    rcases Nat.eq_zero_or_pos j with hj0 | hjpos
    · rw [hj0, h0]; omega
    · rw [hmid j hjpos hj]; omega

/-- **C8** (amended): as long as at most `65535` registrations have
occurred, `getTokenById 0` fails with the argument-error revert,
`getTokenById` returns the zero-address for any unassigned nonzero id,
and `getTokenByAddress` returns the sentinel `0` for any address that was
never registered.  (At `65536` registrations the scan reverts instead —
see the counterexample.) -/
theorem C8_lookup_failure_behaviour (as : List Nat) (st : RegState)
    (hlen : as.length ≤ 65535) (hrun : runAdds freshReg as = .ok st) :
    getTokenById st 0 = .error (.revert "id should not be 0") ∧
    (∀ id, id ≠ 0 → as.length < id → getTokenById st id = .ok 0) ∧
    (∀ a, a ∉ as → getTokenByAddress st a = .ok 0) := by
  obtain ⟨st', hrun', hcnt, huntouched, hassigned⟩ :=
    runAdds_spec as freshReg (by rw [freshReg_counter]; omega)
      (by intro j _ _; rfl)
  rw [hrun'] at hrun
  injection hrun with hst
  subst hst
  have hcnt0 : st'.counter = as.length := by rw [hcnt, freshReg_counter]; omega
  refine ⟨by unfold getTokenById; simp, ?_, ?_⟩
  · intro id hid hlarge
    unfold getTokenById
    rw [if_neg hid,
        huntouched id (Or.inr (by rw [freshReg_counter]; omega)),
        freshReg_tokens]
  · intro a ha
    have h0 : st'.tokens 0 = 0 := by
      rw [huntouched 0 (Or.inl (by omega)), freshReg_tokens]
    rcases Nat.eq_zero_or_pos a with ha0 | hapos
    · rw [ha0]
      exact getTokenByAddress_zero st' h0
    · apply getTokenByAddress_miss st' a (by omega)
      intro j hj
      rw [hcnt0] at hj
      rcases Nat.eq_zero_or_pos j with hj0 | hjpos
      · rw [hj0, h0]; omega
      · have hval := hassigned j (by rw [freshReg_counter]; omega)
          (by rw [freshReg_counter]; omega)
        rw [hval, freshReg_counter, show j - 0 - 1 = j - 1 from by omega]
        have hidx : j - 1 < as.length := by omega
        rw [List.getD_eq_getElem _ _ hidx]
        intro hcontra
        exact ha (hcontra ▸ as.getElem_mem hidx)

/-- Witness for `C8_lookup_failure_behaviour` after registering the
single address `7`. -/
theorem C8_witness :
    getTokenById (⟨1, fun j => if j = 1 then 7 else 0⟩ : RegState) 0 =
        .error (.revert "id should not be 0") ∧
      getTokenById (⟨1, fun j => if j = 1 then 7 else 0⟩ : RegState) 2 = .ok 0 ∧
      getTokenByAddress (⟨1, fun j => if j = 1 then 7 else 0⟩ : RegState) 9 = .ok 0 :=
  have h := C8_lookup_failure_behaviour [7] ⟨1, fun j => if j = 1 then 7 else 0⟩
    (by decide) rfl
  ⟨h.1, h.2.1 2 (by decide) (by decide), h.2.2 9 (by decide)⟩

/-! ## Claims C5 and C10: native-coin batch distribution -/

/-- Exact sum of the requested amounts of a native batch. -/
def amountsSum (params : List InvoiceParams) : Nat :=
  (params.map InvoiceParams.amount).sum

/-- The summing loop computes the exact sum when the batch is short
enough for the `uint8` counter and the running total never overflows. -/
theorem sumLoop_ok : ∀ (l : List InvoiceParams) (i acc : Nat),
    l.length + i ≤ 255 → acc + amountsSum l < UINT256_MOD →
    sumLoop l i acc = .ok (acc + amountsSum l) := by
  intro l
  induction l with
  | nil =>
    intro i acc _ _
    simp [sumLoop, amountsSum]
  | cons p rest ih =>
    intro i acc hlen hover
    have hsum : amountsSum (p :: rest) = p.amount + amountsSum rest := by
      simp [amountsSum]
    rw [hsum] at hover
    rw [sumLoop]
    have hadd : add256 acc p.amount = .ok (acc + p.amount) := by
      unfold add256
      rw [if_pos (by omega)]
    rw [hadd]
    show (if i = 255 then Except.error EvmErr.panic
          else sumLoop rest (i + 1) (acc + p.amount)) = _
    rw [if_neg (by simp [List.length_cons] at hlen; omega)]
    rw [ih (i + 1) (acc + p.amount) (by simp [List.length_cons] at hlen ⊢; omega)
      (by omega), hsum]
    rw [Nat.add_assoc]

/-- With `256` or more invoices the summing loop reverts with a panic:
either the running `uint256` total overflows first, or the `uint8`
counter update at index `255` overflows. -/
theorem sumLoop_panic : ∀ (l : List InvoiceParams) (i acc : Nat),
    256 ≤ i + l.length → i ≤ 255 →
    sumLoop l i acc = .error .panic := by
  intro l
  induction l with
  | nil =>
    intro i acc h1 h2
    simp only [List.length_nil] at h1
    omega
  | cons p rest ih =>
    intro i acc h1 h2
    rw [sumLoop]
    cases hadd : add256 acc p.amount with
    | error e =>
      unfold add256 at hadd
      by_cases hov : acc + p.amount < UINT256_MOD
      · rw [if_pos hov] at hadd
        exact absurd hadd (by simp)
      · rw [if_neg hov] at hadd
        injection hadd with he
        rw [← he]
    | ok t =>
      show (if i = 255 then Except.error EvmErr.panic
            else sumLoop rest (i + 1) t) = Except.error EvmErr.panic
      by_cases h255 : i = 255
      · rw [if_pos h255]
      · rw [if_neg h255]
        exact ih (i + 1) t (by simp [List.length_cons] at h1 ⊢; omega) (by omega)

/-- **C10**: both loops of `etherBulkTransferAmounts` drive a checked
`uint8` counter, so any call with `256` or more invoices reverts with an
arithmetic panic — before the balance check, whatever the contract's
balance or the attached value — and only batches of at most `255`
invoices can ever succeed. -/
theorem C10_uint8_batch_cap (st : Chain) (msgValue : Nat)
    (params : List InvoiceParams) (hlen : 256 ≤ params.length) :
    etherBulkTransferAmounts st msgValue params = .error .panic := by
  unfold etherBulkTransferAmounts
  rw [sumLoop_panic params 0 0 (by omega) (by omega)]

/-- The requested total of a replicated batch. -/
theorem amountsSum_replicate (n : Nat) (p : InvoiceParams) :
    amountsSum (List.replicate n p) = n * p.amount := by
  unfold amountsSum
  rw [List.map_replicate, List.sum_replicate, smul_eq_mul]

/-- Witness for `C10_uint8_batch_cap`: a `256`-invoice batch of
one-wei transfers reverts with a panic even though the contract holds
plenty of funds. -/
theorem C10_witness :
    etherBulkTransferAmounts
      ⟨freshReg, ⟨fun _ => false, fun _ _ => 0, fun _ _ _ => 0⟩, 1, 1000000,
        fun _ => 0, fun _ => true⟩
      0 (List.replicate 256 ⟨5, 1⟩) = .error .panic :=
  C10_uint8_batch_cap _ 0 (List.replicate 256 ⟨5, 1⟩)
    (by rw [List.length_replicate])

/-- **C5 counterexample**: a native batch of `256` one-wei invoices
against an empty contract requests more than the held balance, yet the
call reverts with the `uint8` counter-overflow panic, not with the
`InsufficientFunds` require message the claim promises for *every*
over-requesting batch. -/
theorem C5_counterexample :
    0 < amountsSum (List.replicate 256 ⟨5, 1⟩) ∧
    etherBulkTransferAmounts
        ⟨freshReg, ⟨fun _ => false, fun _ _ => 0, fun _ _ _ => 0⟩, 1, 0,
          fun _ => 0, fun _ => true⟩
        0 (List.replicate 256 ⟨5, 1⟩) = .error .panic ∧
    EvmErr.panic ≠
      EvmErr.revert "There are not enough funds stored in the smart contract" := by
  refine ⟨?_, ?_, by decide⟩
  · rw [amountsSum_replicate]
    norm_num
  · unfold etherBulkTransferAmounts
    rw [sumLoop_panic _ 0 0 (by rw [List.length_replicate]) (by omega)]

/-- **C5** (amended): for a native batch of at most `255` invoices whose
exact amount sum fits in a `uint256` and exceeds the contract's balance
at the moment of the call (its stored balance plus the call's attached
value), `etherBulkTransferAmounts` reverts with the `InsufficientFunds`
require — no transfer is attempted and, the whole call reverting, the
contract's and every receiver's balance are unchanged.  Batches that
overflow the `uint8` counter or the running sum also revert untouched,
but with an arithmetic panic (see the counterexample). -/
theorem C5_insufficient_funds_abort (st : Chain) (msgValue : Nat)
    (params : List InvoiceParams)
    (hlen : params.length ≤ 255)
    (hfit : amountsSum params < UINT256_MOD)
    (hshort : st.executorEth + msgValue < amountsSum params) :
    etherBulkTransferAmounts st msgValue params =
      .error (.revert "There are not enough funds stored in the smart contract") := by
  unfold etherBulkTransferAmounts
  rw [sumLoop_ok params 0 0 (by omega) (by omega)]
  show (if 0 + amountsSum params ≤ st.executorEth + msgValue then _ else _) = _
  rw [if_neg (by omega)]

/-- Witness for `C5_insufficient_funds_abort`: two invoices totalling
`30` against a contract holding `10` plus `5` attached. -/
theorem C5_witness :
    etherBulkTransferAmounts
      ⟨freshReg, ⟨fun _ => false, fun _ _ => 0, fun _ _ _ => 0⟩, 1, 10,
        fun _ => 0, fun _ => true⟩
      5 [⟨7, 10⟩, ⟨8, 20⟩] =
      .error (.revert "There are not enough funds stored in the smart contract") :=
  C5_insufficient_funds_abort _ 5 [⟨7, 10⟩, ⟨8, 20⟩]
    (by decide) (by decide) (by decide)

/-! ## Claim C4: strict comparison boundary -/

/-- **C4**: `checkWalletTokenBalance` is true exactly when the wallet's
token balance strictly exceeds the requested amount, and
`checkWalletAllowance` is true exactly when the allowance the wallet has
granted to the configured executor contract strictly exceeds it; at
equality both checks return `false`. -/
theorem C4_strict_comparison_boundary (env : ModuleEnv) (w t a : Nat) :
    (checkWalletTokenBalance env w t a = true ↔
      a < env.chain.world.balanceOf t w) ∧
    checkWalletTokenBalance env w t (env.chain.world.balanceOf t w) = false ∧
    (checkWalletAllowance env w t a = true ↔
      a < env.chain.world.allowance t w env.contractAddr) ∧
    checkWalletAllowance env w t (env.chain.world.allowance t w env.contractAddr)
      = false := by
  refine ⟨?_, ?_, ?_, ?_⟩ <;>
    simp [checkWalletTokenBalance, checkWalletAllowance]

/-! ## Claim C9: `processInvoices` fund gate -/

theorem foldl_amount_sum : ∀ (l : List SendingInvoice) (acc : Nat),
    l.foldl (fun a inv => a + inv.amount) acc =
      acc + (l.map SendingInvoice.amount).sum := by
  intro l
  induction l with
  | nil => intro acc; simp
  | cons inv rest ih =>
    intro acc
    rw [List.foldl_cons, ih, List.map_cons, List.sum_cons]
    omega

/-- **C9**: `processInvoices` sums the invoice amounts exactly (TypeScript
`bigint`); when the total strictly exceeds the contract's current held
balance plus the funding amount it throws the insufficient-contract-funds
error and issues no ledger write, and otherwise it issues exactly the
native-distribution call over the given invoices with the funding amount
attached. -/
theorem C9_submitNative_fund_gate (env : ModuleEnv) (amount : Nat)
    (invs : List SendingInvoice) :
    (env.chain.executorEth + amount < (invs.map SendingInvoice.amount).sum →
      processInvoices env amount invs =
        .error "Insufficient funds in contract to process invoices") ∧
    ((invs.map SendingInvoice.amount).sum ≤ env.chain.executorEth + amount →
      processInvoices env amount invs =
        .ok (invs.map (fun inv => ⟨inv.receiver, inv.amount⟩), amount)) := by
  unfold processInvoices
  rw [foldl_amount_sum]
  constructor
  · intro h
    rw [if_pos (by omega)]
  · intro h
    rw [if_neg (by omega)]

/-- Witness for `C9_submitNative_fund_gate`: with a held balance of `10`
and funding `5`, a `20`-wei invoice is rejected before any ledger call,
while a `12`-wei invoice is submitted. -/
theorem C9_witness :
    processInvoices
        ⟨9, ⟨freshReg, ⟨fun _ => false, fun _ _ => 0, fun _ _ _ => 0⟩, 9, 10,
          fun _ => 0, fun _ => true⟩, fun w => w.index⟩ 5 [⟨20, 3⟩] =
      .error "Insufficient funds in contract to process invoices" ∧
    processInvoices
        ⟨9, ⟨freshReg, ⟨fun _ => false, fun _ _ => 0, fun _ _ _ => 0⟩, 9, 10,
          fun _ => 0, fun _ => true⟩, fun w => w.index⟩ 5 [⟨12, 3⟩] =
      .ok ([⟨3, 12⟩], 5) :=
  ⟨(C9_submitNative_fund_gate _ 5 [⟨20, 3⟩]).1 (by decide),
   (C9_submitNative_fund_gate _ 5 [⟨12, 3⟩]).2 (by decide)⟩


/-! ## Claims C2 and C3: `processTokenInvoices` validation and submission -/

/-- Whether the module's registry read reports the token address as
registered: the scan result whose truthiness `checkTokenExistInContract`
tests. -/
def tokenRegistered (env : ModuleEnv) (tokenAddress : Nat) : Bool :=
  tokenIdOf env.chain.reg tokenAddress ≠ 0

/-- The error list a single invoice contributes, as the specification
describes it: an existence failure records `TOKEN_NOT_IN_CONTRACT` and
skips the other checks for that invoice only; otherwise the balance
check and the allowance check are both attempted, in that order. -/
def invoiceErrors (env : ModuleEnv) (inv : SendingTokenInvoice) :
    List CustomError :=
  if tokenRegistered env inv.tokenAddress = false then
    [⟨"TOKEN_NOT_IN_CONTRACT",
      "Token " ++ toString inv.tokenAddress ++ " is not in the contract."⟩]
  else
    (if checkWalletTokenBalance env (env.resolve inv.wallet) inv.tokenAddress
          inv.amount = false then
      [⟨"INSUFFICIENT_BALANCE",
        "Insufficient balance in wallet " ++ toString inv.wallet.account ++
          " for token " ++ toString inv.tokenAddress ++ "."⟩]
    else []) ++
    (if checkWalletAllowance env (env.resolve inv.wallet) inv.tokenAddress
          inv.amount = false then
      [⟨"INSUFFICIENT_ALLOWANCE",
        "Insufficient allowance for wallet " ++ toString inv.wallet.account ++
          " to contract."⟩]
    else [])

/-- The on-ledger invoice `processTokenInvoices` constructs for an
invoice that passed the existence check: resolved registry id, receiver,
resolved sender address, amount. -/
def buildInvoice (env : ModuleEnv) (inv : SendingTokenInvoice) :
    TokenInvoiceParams :=
  ⟨tokenIdOf env.chain.reg inv.tokenAddress, inv.receiver,
    env.resolve inv.wallet, inv.amount⟩

theorem checkTokenExistInContract_total (env : ModuleEnv) (a : Nat)
    (hc : env.chain.reg.counter ≤ 65535) :
    checkTokenExistInContract env a = .ok (tokenRegistered env a) := by
  unfold checkTokenExistInContract
  rw [getTokenByAddress_total env.chain.reg a hc]
  rfl

/-- Characterization of the accumulating loop: while the registry counter
is below the `uint16` wrap (so the registry reads cannot revert) it never
throws, appends each invoice's errors in invoice order, and appends one
constructed on-ledger invoice for each input invoice that passed the
existence check, in input order. -/
theorem processTokenInvoicesLoop_spec (env : ModuleEnv)
    (hc : env.chain.reg.counter ≤ 65535) :
    ∀ (l : List SendingTokenInvoice) (errs : List CustomError)
      (invs : List TokenInvoiceParams),
    processTokenInvoicesLoop env (errs, invs) l =
      .ok (errs ++ l.flatMap (invoiceErrors env),
        invs ++ (l.filter
          (fun inv => tokenRegistered env inv.tokenAddress)).map
            (buildInvoice env)) := by
  intro l
  induction l with
  | nil =>
    intro errs invs
    simp [processTokenInvoicesLoop]
  | cons inv rest ih =>
    intro errs invs
    rw [processTokenInvoicesLoop]
    unfold processTokenInvoice
    rw [checkTokenExistInContract_total env inv.tokenAddress hc]
    cases hreg : tokenRegistered env inv.tokenAddress with
    | false =>
      simp [ih, invoiceErrors, hreg, List.filter_cons, List.append_assoc]
    | true =>
      rw [getTokenByAddress_total env.chain.reg inv.tokenAddress hc]
      by_cases hbal : checkWalletTokenBalance env (env.resolve inv.wallet)
          inv.tokenAddress inv.amount = false <;>
        by_cases hal : checkWalletAllowance env (env.resolve inv.wallet)
            inv.tokenAddress inv.amount = false <;>
          simp [ih, invoiceErrors, buildInvoice, hreg, hbal, hal,
            List.filter_cons, List.append_assoc]

/-- **C3**: the returned error list is exactly the concatenation, in
invoice order, of each invoice's own errors, where an invoice's errors
are: the single `TOKEN_NOT_IN_CONTRACT` entry when the existence check
fails (balance and allowance are skipped for that invoice only), and
otherwise the `INSUFFICIENT_BALANCE` entry (if any) followed by the
`INSUFFICIENT_ALLOWANCE` entry (if any) — both checks attempted
independently.  Stated for registries below the `uint16` wrap, where the
reads cannot revert. -/
theorem C3_validation_accumulates_in_order (env : ModuleEnv)
    (invs : List SendingTokenInvoice)
    (hc : env.chain.reg.counter ≤ 65535) :
    ∃ submitted, processTokenInvoices env invs =
      .ok (invs.flatMap (invoiceErrors env), submitted) := by
  unfold processTokenInvoices
  rw [processTokenInvoicesLoop_spec env hc invs [] []]
  show ∃ submitted,
    (if (invs.flatMap (invoiceErrors env)).length > 0 then _ else _) =
      Except.ok (invs.flatMap (invoiceErrors env), submitted)
  by_cases h : (invs.flatMap (invoiceErrors env)).length > 0
  · exact ⟨none, by rw [if_pos h]; simp⟩
  · refine ⟨some ((invs.filter
      (fun inv => tokenRegistered env inv.tokenAddress)).map (buildInvoice env)),
      by rw [if_neg h]; simp⟩

/-- **C2**: `processTokenInvoices` is all-or-nothing before the chain:
when validation records at least one error, the accumulated error list is
returned and the token-distribution entry point is not called (`none`);
when validation is clean, the entry point is called exactly once with the
on-ledger invoice constructed from every input invoice, in order, and the
empty list is returned.  Stated for registries below the `uint16` wrap,
where the reads cannot revert. -/
theorem C2_all_or_nothing_submission (env : ModuleEnv)
    (invs : List SendingTokenInvoice)
    (hc : env.chain.reg.counter ≤ 65535) :
    (invs.flatMap (invoiceErrors env) ≠ [] →
      processTokenInvoices env invs =
        .ok (invs.flatMap (invoiceErrors env), none)) ∧
    (invs.flatMap (invoiceErrors env) = [] →
      processTokenInvoices env invs =
        .ok ([], some (invs.map (buildInvoice env)))) := by
  constructor
  · intro hne
    have hpos : (invs.flatMap (invoiceErrors env)).length > 0 :=
      List.length_pos.mpr hne
    unfold processTokenInvoices
    rw [processTokenInvoicesLoop_spec env hc invs [] []]
    show (if (invs.flatMap (invoiceErrors env)).length > 0 then _ else _) = _
    rw [if_pos hpos]
    simp
  · intro hnil
    have hall : ∀ inv ∈ invs, tokenRegistered env inv.tokenAddress = true := by
      intro inv hmem
      have hie : invoiceErrors env inv = [] :=
        List.flatMap_eq_nil_iff.mp hnil inv hmem
      by_contra hfalse
      have hf : tokenRegistered env inv.tokenAddress = false := by
        revert hfalse
        cases tokenRegistered env inv.tokenAddress <;> simp
      rw [invoiceErrors, if_pos hf] at hie
      exact absurd hie (by simp)
    have hfilter :
        invs.filter (fun inv => tokenRegistered env inv.tokenAddress) = invs :=
      List.filter_eq_self.mpr hall
    unfold processTokenInvoices
    rw [processTokenInvoicesLoop_spec env hc invs [] [], hfilter]
    show (if (invs.flatMap (invoiceErrors env)).length > 0 then _ else _) = _
    rw [hnil, if_neg (by simp)]
    simp

/-- A concrete module environment for the witnesses: a registry holding
address `7` at id `1` and address `8` at id `2` (counter `2`), every
wallet holding `100` of every token with allowance `100` to the
configured contract `77`, wallet references resolving to their `index`
field. -/
def envW : ModuleEnv :=
  ⟨77,
   ⟨⟨2, fun j => if j = 1 then 7 else if j = 2 then 8 else 0⟩,
    ⟨fun _ => true, fun _ _ => 100, fun _ _ _ => 100⟩,
    77, 0, fun _ => 0, fun _ => true⟩,
   fun w => w.index⟩

/-- Witness for `C2_all_or_nothing_submission`: one unregistered-token
invoice yields exactly the one error and no submission; one fully-funded
registered invoice yields no errors and a single submission carrying its
constructed on-ledger invoice. -/
theorem C2_witness :
    processTokenInvoices envW [⟨⟨60, 1, 0, 3⟩, 9, 50, 4⟩] =
      .ok ([⟨"TOKEN_NOT_IN_CONTRACT", "Token 9 is not in the contract."⟩], none) ∧
    processTokenInvoices envW [⟨⟨60, 1, 0, 3⟩, 7, 50, 4⟩] =
      .ok ([], some [⟨1, 4, 3, 50⟩]) :=
  ⟨(C2_all_or_nothing_submission envW [⟨⟨60, 1, 0, 3⟩, 9, 50, 4⟩] (by decide)).1
      (by decide),
   (C2_all_or_nothing_submission envW [⟨⟨60, 1, 0, 3⟩, 7, 50, 4⟩] (by decide)).2
      (by decide)⟩

/-- Witness for `C3_validation_accumulates_in_order`: an
unregistered-token invoice followed by an under-funded one produce, in
order, the existence error of the first and then both the balance and
allowance errors of the second. -/
theorem C3_witness :
    ∃ submitted, processTokenInvoices envW
        [⟨⟨60, 1, 0, 3⟩, 9, 50, 4⟩, ⟨⟨60, 1, 0, 3⟩, 7, 200, 4⟩] =
      .ok ([⟨"TOKEN_NOT_IN_CONTRACT", "Token 9 is not in the contract."⟩,
            ⟨"INSUFFICIENT_BALANCE",
              "Insufficient balance in wallet 1 for token 7."⟩,
            ⟨"INSUFFICIENT_ALLOWANCE",
              "Insufficient allowance for wallet 1 to contract."⟩], submitted) :=
  C3_validation_accumulates_in_order envW
    [⟨⟨60, 1, 0, 3⟩, 9, 50, 4⟩, ⟨⟨60, 1, 0, 3⟩, 7, 200, 4⟩] (by decide)

/-! ## Claim C6: token batch execution -/

/-- Modelled from the spec's words, for the refinement comparison of C6:
"for each invoice in order, resolves `token` to an address via
TokenRegistry.lookupById and issues a third-party transfer moving
`amount` directly from `sender` to `receiver`"; any single transfer's
failure aborts and reverts the whole batch.  Compared below with the
executor's actual loop. -/
def specDistributeTokens : Chain → List TokenInvoiceParams → Except EvmErr Chain
  | st, [] => .ok st
  | st, p :: rest =>
    match getTokenById st.reg p.token with
    | .error e => .error e
    | .ok a =>
      match transferFrom st.world a st.executorAddr p.sender p.receiver p.amount with
      | .error e => .error e
      | .ok w' => specDistributeTokens { st with world := w' } rest

theorem erc20Loop_eq_spec :
    ∀ (l : List TokenInvoiceParams) (i : Nat) (st : Chain),
    i + l.length ≤ 65535 → (∀ p ∈ l, p.token ≠ 0) →
    erc20Loop l i st = specDistributeTokens st l := by
  intro l
  induction l with
  | nil => intro i st _ _; rfl
  | cons p rest ih =>
    intro i st hlen hnz
    have hgtbi : getTokenById st.reg p.token = .ok (st.reg.tokens p.token) := by
      unfold getTokenById
      rw [if_neg (hnz p (List.mem_cons_self p rest))]
    rw [erc20Loop, specDistributeTokens, hgtbi]
    show (match transferFrom st.world (st.reg.tokens p.token) st.executorAddr
            p.sender p.receiver p.amount with
          | Except.error e => Except.error e
          | Except.ok w' =>
            if i = 65535 then Except.error EvmErr.panic
            else erc20Loop rest (i + 1) { st with world := w' }) =
        (match transferFrom st.world (st.reg.tokens p.token) st.executorAddr
            p.sender p.receiver p.amount with
          | Except.error e => Except.error e
          | Except.ok w' => specDistributeTokens { st with world := w' } rest)
    cases htf : transferFrom st.world (st.reg.tokens p.token) st.executorAddr
        p.sender p.receiver p.amount with
    | error e => rfl
    | ok w' =>
      show (if i = 65535 then Except.error EvmErr.panic
            else erc20Loop rest (i + 1) { st with world := w' }) =
          specDistributeTokens { st with world := w' } rest
      rw [if_neg (by simp [List.length_cons] at hlen; omega)]
      exact ih (i + 1) { st with world := w' }
        (by simp [List.length_cons] at hlen ⊢; omega)
        (fun q hq => hnz q (List.mem_cons_of_mem p hq))

/-- **C6** (amended): for every batch that fits the `uint16` loop counter
and whose token ids are all nonzero, the executor processes the invoices
in input order, resolving each id exactly as `getTokenById` would and
issuing the third-party `transferFrom` from the invoice's sender to its
receiver, and a failing transfer reverts the whole batch — i.e. the
executor's loop coincides with the spec-level fold.  For id `0` the two
differ (see the counterexample): the executor reads the zero address from
the mapping and the external call fails, where `getTokenById` would
revert with its argument check. -/
theorem C6_token_batch_refines_spec (st : Chain)
    (params : List TokenInvoiceParams)
    (hlen : params.length ≤ 65535) (hnz : ∀ p ∈ params, p.token ≠ 0) :
    erc20sMultiOriginBulkTransferAmounts st params =
      specDistributeTokens st params :=
  erc20Loop_eq_spec params 0 st (by omega) hnz

/-- Chain state for the C6 counterexample: fresh registry, no deployed
token contracts. -/
def chainC6 : Chain :=
  ⟨freshReg, ⟨fun _ => false, fun _ _ => 0, fun _ _ _ => 0⟩, 1, 0,
    fun _ => 0, fun _ => true⟩

/-- **C6 counterexample**: on an invoice carrying token id `0`, the
executor does *not* resolve "exactly as getTokenById would": it reads the
zero address from the mapping and fails on the external call, while
`getTokenById 0` reverts with `"id should not be 0"` — observably
different revert reasons. -/
theorem C6_counterexample :
    erc20sMultiOriginBulkTransferAmounts chainC6 [⟨0, 2, 3, 0⟩] =
      .error .callFailed ∧
    specDistributeTokens chainC6 [⟨0, 2, 3, 0⟩] =
      .error (.revert "id should not be 0") ∧
    EvmErr.callFailed ≠ EvmErr.revert "id should not be 0" :=
  ⟨rfl, rfl, by decide⟩

/-- Witness for `C6_token_batch_refines_spec` at a concrete registered
one-invoice batch. -/
theorem C6_witness :
    erc20sMultiOriginBulkTransferAmounts
        ⟨⟨2, fun j => if j = 1 then 7 else if j = 2 then 8 else 0⟩,
          ⟨fun _ => true, fun _ _ => 100, fun _ _ _ => 100⟩, 9, 0,
          fun _ => 0, fun _ => true⟩ [⟨1, 4, 3, 10⟩] =
      specDistributeTokens
        ⟨⟨2, fun j => if j = 1 then 7 else if j = 2 then 8 else 0⟩,
          ⟨fun _ => true, fun _ _ => 100, fun _ _ _ => 100⟩, 9, 0,
          fun _ => 0, fun _ => true⟩ [⟨1, 4, 3, 10⟩] :=
  C6_token_batch_refines_spec _ [⟨1, 4, 3, 10⟩] (by decide) (by decide)
